import Mathlib

/-!
Verification of the request-validation / response-normalization core of the
validation-cloud-mcp repository (`src/utils.ts`, `src/api.ts`).

The JSON values flowing through the normalizer are modelled by `JSValue`;
JavaScript truthiness, `typeof`, string conversion, `parseInt(·, 16)` and
`BigInt(·)` parsing are modelled explicitly.  Machine numbers are modelled as
`Int` (the sources tolerate precision loss above 2^53 for `hexToDecimal`; no
property below depends on that rounding).  The repository contains an older
draft of `utils.ts` next to the current one; the definitions below embed the
variant that the repository's own unit tests exercise (the one with the
`'0x'` / `isNaN` guards and the truthiness-guarded block transform).
-/

namespace VCMcp

/-- A JSON value as handled by the normalizer (JavaScript runtime values:
`null`, booleans, numbers, strings, arrays, objects).  Objects are ordered
association lists, mirroring JavaScript property order. -/
inductive JSValue : Type where
  | null : JSValue
  | bool : Bool → JSValue
  | num : Int → JSValue
  | str : String → JSValue
  | arr : List JSValue → JSValue
  | obj : List (String × JSValue) → JSValue

/-- JavaScript truthiness of a value (`!v` is the negation of this):
`null`, `false`, `0` and `""` are falsy, everything else is truthy. -/
def truthy : JSValue → Bool
  | .null => false
  | .bool b => b
  | .num n => n != 0
  | .str s => !s.data.isEmpty
  | .arr _ => true
  | .obj _ => true

/-- Truthiness of an optional value; `none` models JavaScript `undefined`
(an absent object field), which is falsy. -/
def truthyOpt : Option JSValue → Bool
  | none => false
  | some v => truthy v

/-- JavaScript `typeof v === 'object'`: true for `null`, arrays and plain
objects, false for booleans, numbers and strings. -/
def typeofObject : JSValue → Bool
  | .null => true
  | .arr _ => true
  | .obj _ => true
  | _ => false

/-- Strict equality `v === t` of a value against a string literal: true only
when `v` is a string with exactly that text. -/
def jsStrictEqStr (v : JSValue) (t : String) : Bool :=
  match v with
  | .str s => decide (s = t)
  | _ => false

/-- First-match lookup of an object property, `none` for an absent field. -/
def getField : List (String × JSValue) → String → Option JSValue
  | [], _ => none
  | kv :: rest, key => if kv.1 = key then some kv.2 else getField rest key

/-- Overwrite a property in place (JavaScript object-literal override keeps
the original insertion position), appending it when absent. -/
def setField : List (String × JSValue) → String → JSValue → List (String × JSValue)
  | [], key, v => [(key, v)]
  | kv :: rest, key, v =>
      if kv.1 = key then (key, v) :: rest else kv :: setField rest key v

/-- Property lookup on a value: fields of an object, `none` otherwise. -/
def getProp : JSValue → String → Option JSValue
  | .obj fs, k => getField fs k
  | _, _ => none

/-- Array entries keyed by their decimal index, as enumerated by an array
spread. -/
def indexFields : Nat → List JSValue → List (String × JSValue)
  | _, [] => []
  | i, v :: rest => (toString i, v) :: indexFields (i + 1) rest

/-- The own enumerable entries produced by a spread `{...v}`: the fields of
an object, index-keyed entries of an array, `none` for values whose
`typeof` is not `'object'` (with `null` handled by the truthiness guards
before any spread in the sources). -/
def spreadFields : JSValue → Option (List (String × JSValue))
  | .obj fs => some fs
  | .arr xs => some (indexFields 0 xs)
  | _ => none

/-- Does the list start with the given pattern of characters? -/
def startsWithL : List Char → List Char → Bool
  | [], _ => true
  | _ :: _, [] => false
  | p :: ps, c :: cs => p == c && startsWithL ps cs

/-- `String.prototype.replace(pat, '')` with a string pattern: delete the
first occurrence of `pat`, leave the rest untouched. -/
def stripFirst (pat : List Char) : List Char → List Char
  | [] => []
  | c :: rest =>
      if startsWithL pat (c :: rest) then (c :: rest).drop pat.length
      else c :: stripFirst pat rest

/-- JavaScript whitespace characters recognized when trimming numeric
strings. -/
def isJsSpace (c : Char) : Bool :=
  c == ' ' || c == '\t' || c == '\n' || c == '\r' || c == '\x0b' || c == '\x0c'

/-- Hexadecimal digit test (`0-9`, `a-f`, `A-F`). -/
def isHexDig (c : Char) : Bool :=
  (decide ('0' ≤ c) && decide (c ≤ '9')) ||
  (decide ('a' ≤ c) && decide (c ≤ 'f')) ||
  (decide ('A' ≤ c) && decide (c ≤ 'F'))

/-- Decimal digit test. -/
def isDecDig (c : Char) : Bool :=
  decide ('0' ≤ c) && decide (c ≤ '9')

/-- Octal digit test. -/
def isOctDig (c : Char) : Bool :=
  decide ('0' ≤ c) && decide (c ≤ '7')

/-- Binary digit test. -/
def isBinDig (c : Char) : Bool :=
  c == '0' || c == '1'

/-- Numeric value of a digit character (0 for non-digits; only applied to
characters accepted by the digit tests). -/
def digVal (c : Char) : Nat :=
  if decide ('0' ≤ c) && decide (c ≤ '9') then c.toNat - '0'.toNat
  else if decide ('a' ≤ c) && decide (c ≤ 'f') then c.toNat - 'a'.toNat + 10
  else if decide ('A' ≤ c) && decide (c ≤ 'F') then c.toNat - 'A'.toNat + 10
  else 0

/-- Value of a digit string in the given base. -/
def digitsVal (base : Nat) (l : List Char) : Nat :=
  l.foldl (fun a c => base * a + digVal c) 0

/-- Optional sign at the start of a numeric string, as accepted by
`parseInt`. -/
def splitSign : List Char → Int × List Char
  | '-' :: rest => (-1, rest)
  | '+' :: rest => (1, rest)
  | l => (1, l)

/-- Model of JavaScript `parseInt(s, 16)`: skip leading whitespace, read an
optional sign and an optional `0x`/`0X` prefix, then the longest run of
hexadecimal digits; no digit at all gives `NaN`, modelled as `none`.
(The double rounding of values above 2^53 is not modelled; no claim
exercises it.) -/
def parseInt16L (l : List Char) : Option Int :=
  let l1 := l.dropWhile isJsSpace
  let p := splitSign l1
  let l2 := if startsWithL ['0', 'x'] p.2 || startsWithL ['0', 'X'] p.2
            then p.2.drop 2 else p.2
  let digs := l2.takeWhile isHexDig
  if digs.isEmpty then none else some (p.1 * (digitsVal 16 digs : Nat))

/-- Digits of a `BigInt` literal body: the whole string must be non-empty
and consist of digits of the base, otherwise the constructor throws
(`none`). -/
def bigIntDigits (valid : Char → Bool) (base : Nat) (l : List Char) : Option Nat :=
  if l.isEmpty then none
  else if l.all valid then some (digitsVal base l) else none

/-- `BigInt('0x' ++ digits)` as used by `hexToDecimalString`. -/
def bigIntHexL (l : List Char) : Option Nat :=
  bigIntDigits isHexDig 16 l

/-- Trim JavaScript whitespace from both ends. -/
def trimJsWs (l : List Char) : List Char :=
  ((l.dropWhile isJsSpace).reverse.dropWhile isJsSpace).reverse

/-- Model of JavaScript `BigInt(string)` (`StringToBigInt`): trim
whitespace, accept an empty remainder as `0`, a `0x`/`0o`/`0b` radix prefix
with digits, or an optionally signed decimal digit string; anything else
throws (`none`). -/
def jsBigInt (s : String) : Option Int :=
  match trimJsWs s.data with
  | [] => some 0
  | '0' :: 'x' :: rest => (bigIntHexL rest).map Int.ofNat
  | '0' :: 'X' :: rest => (bigIntHexL rest).map Int.ofNat
  | '0' :: 'o' :: rest => (bigIntDigits isOctDig 8 rest).map Int.ofNat
  | '0' :: 'O' :: rest => (bigIntDigits isOctDig 8 rest).map Int.ofNat
  | '0' :: 'b' :: rest => (bigIntDigits isBinDig 2 rest).map Int.ofNat
  | '0' :: 'B' :: rest => (bigIntDigits isBinDig 2 rest).map Int.ofNat
  | '-' :: rest => (bigIntDigits isDecDig 10 rest).map (fun n => -(n : Int))
  | '+' :: rest => (bigIntDigits isDecDig 10 rest).map Int.ofNat
  | l => (bigIntDigits isDecDig 10 l).map Int.ofNat

/-- The decimal digit character for `d < 10`. -/
def decDigitChar (d : Nat) : Char :=
  if d = 0 then '0' else if d = 1 then '1' else if d = 2 then '2'
  else if d = 3 then '3' else if d = 4 then '4' else if d = 5 then '5'
  else if d = 6 then '6' else if d = 7 then '7' else if d = 8 then '8'
  else '9'

/-- Decimal digits by structural recursion on a fuel bound (any fuel above
the value itself is enough, the recursion divides by ten each step). -/
def decDigitsAux : Nat → Nat → List Char
  | 0, _ => []
  | fuel + 1, n =>
      if n < 10 then [decDigitChar n]
      else decDigitsAux fuel (n / 10) ++ [decDigitChar (n % 10)]

/-- Decimal digits of a natural number, most significant first (the digits
of `BigInt.prototype.toString()`). -/
def decDigits (n : Nat) : List Char := decDigitsAux (n + 1) n

/-- Exact decimal rendering of a natural number, modelling
`BigInt.prototype.toString()`. -/
def decStr (n : Nat) : String := ⟨decDigits n⟩

/-- Reading a decimal string back as an arbitrary-precision non-negative
integer: defined only on non-empty all-digit strings. -/
def parseDecL (l : List Char) : Option Nat :=
  if !l.isEmpty && l.all isDecDig then some (digitsVal 10 l) else none

mutual

/-- JavaScript string conversion of a value, as triggered by
`hex.toString()` in the conversion helpers.  Strings and integral numbers
(the cases the normalizer can actually reach) are rendered exactly; arrays
join their elements with commas (with `null` elements rendered empty) and
plain objects render as `"[object Object]"`. -/
def jsToString : JSValue → String
  | .null => "null"
  | .bool b => cond b "true" "false"
  | .num n => toString n
  | .str s => s
  | .arr xs => jsToStringArr xs
  | .obj _ => "[object Object]"

/-- Comma-joined rendering of array elements (`Array.prototype.toString`),
`null` elements rendering as the empty string. -/
def jsToStringArr : List JSValue → String
  | [] => ""
  | [JSValue.null] => ""
  | [v] => jsToString v
  | JSValue.null :: rest => "," ++ jsToStringArr rest
  | v :: rest => jsToString v ++ "," ++ jsToStringArr rest

end

/-- `hexToDecimal` from `utils.ts`: falsy or `'0x'` input yields 0;
otherwise delete the first `'0x'` of the string form and `parseInt(·, 16)`,
with a `NaN` result mapped to 0.  The argument is the raw field value, with
`none` standing for `undefined`. -/
def hexToDecimal (hex : Option JSValue) : Int :=
  match hex with
  | none => 0
  | some v =>
      if truthy v = false then 0
      else if jsStrictEqStr v "0x" then 0
      else
        match parseInt16L (stripFirst ['0', 'x'] (jsToString v).data) with
        | none => 0
        | some r => r

/-- `hexToDecimalString` from `utils.ts`: falsy or `'0x'` input yields
`"0"`; otherwise delete the first `'0x'`, return `"0"` for an empty
remainder, and render `BigInt('0x' ++ rest)` in decimal, any `BigInt`
parse failure giving `"0"`. -/
def hexToDecimalString (hex : Option JSValue) : String :=
  match hex with
  | none => "0"
  | some v =>
      if truthy v = false then "0"
      else if jsStrictEqStr v "0x" then "0"
      else
        let cleanHex := stripFirst ['0', 'x'] (jsToString v).data
        if cleanHex.isEmpty then "0"
        else
          match bigIntHexL cleanHex with
          | none => "0"
          | some n => decStr n

/-- Rendering of the ether amount `wei / 10^18`, modelled as the exact
decimal quotient with trailing zeros dropped.  The source computes
`Number(wei) / 1e18` and renders it with JavaScript number `toString`
(IEEE-754 binary64 rounding plus shortest-round-trip printing), which is
not shallowly embeddable; every claim settled below is independent of this
rendering. -/
def etherRepr (wei : Int) : String :=
  let n := wei.natAbs
  let sgn := if wei < 0 then "-" else ""
  let ip := n / 10 ^ 18
  let fp := n % 10 ^ 18
  if fp = 0 then sgn ++ decStr ip
  else
    let fracDigits := List.replicate (18 - (decDigits fp).length) '0' ++ decDigits fp
    sgn ++ decStr ip ++ "." ++ ⟨(fracDigits.reverse.dropWhile (· == '0')).reverse⟩

/-- `weiToEther` from `utils.ts`: falsy or `'0x'` input yields `"0"`;
otherwise parse the string form with `BigInt` (failure giving `"0"`) and
render the amount divided by 10^18. -/
def weiToEther (weiHex : Option JSValue) : String :=
  match weiHex with
  | none => "0"
  | some v =>
      if truthy v = false then "0"
      else if jsStrictEqStr v "0x" then "0"
      else
        match jsBigInt (jsToString v) with
        | none => "0"
        | some wei => etherRepr wei

/-- One conditional spread `...(src.k && { k: hexToDecimal(src.k) })` on top
of the already-built fields `o`: overwrite `k` with its converted value only
when the field is truthy in the source `src`. -/
def condSet (k : String) (src o : List (String × JSValue)) : List (String × JSValue) :=
  if truthyOpt (getField src k) then
    setField o k (.num (hexToDecimal (getField src k)))
  else o

/-- The object built by `transformTransaction` for a spreadable input with
entries `fs`: spread the source, overwrite `blockNumber`,
`transactionIndex`, `gas`, `gasPrice`, `nonce` and `value` per the
object-literal, then apply the three conditional spreads for `gasUsed`,
`cumulativeGasUsed` and `effectiveGasPrice`. -/
def txTransformFields (fs : List (String × JSValue)) : List (String × JSValue) :=
  let o := setField fs "blockNumber"
    (if truthyOpt (getField fs "blockNumber") then
      .num (hexToDecimal (getField fs "blockNumber")) else .null)
  let o := setField o "transactionIndex"
    (if truthyOpt (getField fs "transactionIndex") then
      .num (hexToDecimal (getField fs "transactionIndex")) else .null)
  let o := setField o "gas" (.num (hexToDecimal (getField fs "gas")))
  let o := setField o "gasPrice"
    (if truthyOpt (getField fs "gasPrice") then
      .num (hexToDecimal (getField fs "gasPrice")) else .null)
  let o := setField o "nonce" (.num (hexToDecimal (getField fs "nonce")))
  let o := setField o "value"
    (.obj [("wei", .str (hexToDecimalString (getField fs "value"))),
           ("ether", .str (weiToEther (getField fs "value")))])
  let o := condSet "gasUsed" fs o
  let o := condSet "cumulativeGasUsed" fs o
  condSet "effectiveGasPrice" fs o

/-- `transformTransaction` from `utils.ts`: falsy or non-`'object'` input is
returned unchanged; otherwise the field-by-field rewrite of
`txTransformFields` is applied to the spread of the input. -/
def transformTransaction (tx : JSValue) : JSValue :=
  if truthy tx = false then tx
  else
    match spreadFields tx with
    | none => tx
    | some fs => .obj (txTransformFields fs)

/-- The element mapping applied inside a block's `transactions` array:
objects (in the `typeof` sense) go through the transaction transform, bare
hash strings and other primitives are left untouched. -/
def blockTxElem (tx : JSValue) : JSValue :=
  if typeofObject tx then transformTransaction tx else tx

/-- The rewrite of a truthy `transactions` field: arrays are mapped
elementwise, a non-array value is kept as is. -/
def blockTxMap : JSValue → JSValue
  | .arr xs => .arr (xs.map blockTxElem)
  | v => v

/-- The object built by the block branch of `transformResponse`: spread the
source, then conditionally overwrite `number`, `gasLimit`, `gasUsed` and
`timestamp` with their conversions and, when `transactions` is truthy,
overwrite it with the mapped value. -/
def blockTransformFields (fs : List (String × JSValue)) : List (String × JSValue) :=
  let o := condSet "number" fs fs
  let o := condSet "gasLimit" fs o
  let o := condSet "gasUsed" fs o
  let o := condSet "timestamp" fs o
  if truthyOpt (getField fs "transactions") then
    setField o "transactions" (blockTxMap ((getField fs "transactions").getD .null))
  else o

/-- `transformResponse` from `utils.ts`: a falsy result is returned
unchanged; otherwise the method selects the rule — plain `hexToDecimal` for
`eth_blockNumber` / `eth_gasPrice` / `eth_estimateGas`, the wei/ether pair
for a string `eth_getBalance` result, the block rewrite for
`eth_getBlockByNumber` / `eth_getBlockByHash` objects, the transaction
transform for `eth_getTransactionByHash` / `eth_getTransactionReceipt`, and
the identity for every other method. -/
def transformResponse (method : String) (result : JSValue) : JSValue :=
  if truthy result = false then result
  else if method = "eth_blockNumber" ∨ method = "eth_gasPrice" ∨
          method = "eth_estimateGas" then
    .num (hexToDecimal (some result))
  else if method = "eth_getBalance" then
    match result with
    | .str _ =>
        .obj [("wei", .str (hexToDecimalString (some result))),
              ("ether", .str (weiToEther (some result)))]
    | _ => result
  else if method = "eth_getBlockByNumber" ∨ method = "eth_getBlockByHash" then
    match spreadFields result with
    | none => result
    | some fs => .obj (blockTransformFields fs)
  else if method = "eth_getTransactionByHash" ∨
          method = "eth_getTransactionReceipt" then
    transformTransaction result
  else result

/-- `ValidationCloudError` (from `types.ts`): a message, an optional numeric
code (HTTP status or JSON-RPC error code) and — not needed by any claim —
optional details. -/
structure VCError where
  message : String
  code : Option Int
deriving DecidableEq, Repr

/-- `EthereumErrorCode.INVALID_PARAMS`. -/
def INVALID_PARAMS : Int := -32602

/-- Is a parameter a string starting with `'0x'`
(`typeof p === 'string' && p.startsWith('0x')`)? `none` models an absent
element. -/
def isHexStringParam : Option JSValue → Bool
  | some (.str s) => startsWithL ['0', 'x'] s.data
  | _ => false

/-- `validateParams` from `api.ts`: shape checks for `eth_getBalance`,
`eth_getTransactionByHash` and `eth_getLogs`, no check for any other
method.  `none` is a passed validation, `some e` the thrown
`ValidationCloudError`.  The `eth_getLogs` check is
`typeof params[0] !== 'object'`, so `null` and arrays — whose `typeof` is
`'object'` — pass it. -/
def validateParams (method : String) (params : Option (List JSValue)) :
    Option VCError :=
  if method = "eth_getBalance" then
    match params with
    | none => some ⟨"eth_getBalance requires address and block parameters",
                    some INVALID_PARAMS⟩
    | some l =>
        if l.length ≠ 2 then
          some ⟨"eth_getBalance requires address and block parameters",
                some INVALID_PARAMS⟩
        else if isHexStringParam l.head? = false then
          some ⟨"Invalid address parameter", some INVALID_PARAMS⟩
        else none
  else if method = "eth_getTransactionByHash" then
    match params with
    | none => some ⟨"Invalid transaction hash parameter", some INVALID_PARAMS⟩
    | some l =>
        if l.length ≠ 1 then
          some ⟨"Invalid transaction hash parameter", some INVALID_PARAMS⟩
        else if isHexStringParam l.head? = false then
          some ⟨"Invalid transaction hash parameter", some INVALID_PARAMS⟩
        else none
  else if method = "eth_getLogs" then
    match params with
    | none => some ⟨"eth_getLogs requires a filter object parameter",
                    some INVALID_PARAMS⟩
    | some l =>
        if l.length ≠ 1 then
          some ⟨"eth_getLogs requires a filter object parameter",
                some INVALID_PARAMS⟩
        else
          match l.head? with
          | some v =>
              if typeofObject v then none
              else some ⟨"eth_getLogs requires a filter object parameter",
                         some INVALID_PARAMS⟩
          | none => some ⟨"eth_getLogs requires a filter object parameter",
                          some INVALID_PARAMS⟩
  else none

/-- The JSON-RPC response body delivered by the transport: `result` and
`error` are each either absent (`none`, JavaScript `undefined`) or a JSON
value. -/
structure RpcBody where
  result : Option JSValue
  rpcError : Option JSValue

/-- Outcome of the single outbound HTTP call: a body on success, or an
axios failure carrying the transport message, the optional HTTP status and
the optional `message` of a structured response body, or any other
exception with its optional message. -/
inductive NetOutcome : Type where
  | success : RpcBody → NetOutcome
  | axiosFailure : String → Option Int → Option String → NetOutcome
  | otherFailure : Option String → NetOutcome

/-- `request` from `api.ts`: validate first (a validation error is thrown
before the network is consulted — the outcome is then independent of
`net`); on transport success, overwrite `result` with its transformed value
exactly when it is not `undefined`, and resolve with the body (a JSON-RPC
level `error` in the body is not inspected); on transport failure, throw
the mapped `ValidationCloudError`. -/
def request (method : String) (params : Option (List JSValue))
    (net : NetOutcome) : Except VCError RpcBody :=
  match validateParams method params with
  | some e => .error e
  | none =>
      match net with
      | .success body =>
          .ok ⟨body.result.map (transformResponse method), body.rpcError⟩
      | .axiosFailure msg status dataMsg =>
          .error ⟨match dataMsg with
                  | some m => if m = "" then msg else m
                  | none => msg,
                  status⟩
      | .otherFailure msg =>
          .error ⟨match msg with
                  | some m => m
                  | none => "Unknown error",
                  none⟩

theorem getField_setField (o : List (String × JSValue)) (k k' : String)
    (v : JSValue) :
    getField (setField o k v) k' =
      if k' = k then some v else getField o k' := by
  induction o with
  | nil =>
      simp only [setField, getField]
      by_cases h : k' = k
      · subst h; simp
      · rw [if_neg (fun h' => h h'.symm), if_neg h]
  | cons kv rest ih =>
      simp only [setField]
      by_cases h1 : kv.1 = k
      · rw [if_pos h1]
        by_cases h2 : k' = k
        · subst h2
          simp [getField, h1]
        · have hkk' : ¬k = k' := fun h => h2 h.symm
          simp [getField, h1, h2, hkk']
      · rw [if_neg h1]
        by_cases h3 : kv.1 = k'
        · have h2 : ¬k' = k := fun h => h1 (h3.trans h)
          simp [getField, h3, h2]
        · simp [getField, h3, ih]

theorem getField_condSet (src o : List (String × JSValue)) (k k' : String) :
    getField (condSet k src o) k' =
      if k' = k ∧ truthyOpt (getField src k) = true then
        some (.num (hexToDecimal (getField src k)))
      else getField o k' := by
  unfold condSet
  by_cases ht : truthyOpt (getField src k) = true <;>
    by_cases hk : k' = k <;>
    simp [ht, hk, getField_setField]

theorem startsWithL_ox (l : List Char) :
    startsWithL ['0', 'x'] l = true ↔ ∃ t, l = '0' :: 'x' :: t := by
  match l with
  | [] => simp [startsWithL]
  | [c] => simp [startsWithL]
  | c :: d :: t =>
      constructor
      · intro h
        simp [startsWithL] at h
        obtain ⟨h1, h2⟩ := h
        exact ⟨t, by rw [← h1, ← h2]⟩
      · rintro ⟨t', ht⟩
        cases ht
        simp [startsWithL]

theorem isHexDig_ne_x {c : Char} (h : isHexDig c = true) : c ≠ 'x' := by
  intro hc
  subst hc
  simp [isHexDig] at h

theorem stripFirst_of_all_hex {l : List Char}
    (h : ∀ c ∈ l, isHexDig c = true) :
    stripFirst ['0', 'x'] l = l := by
  induction l with
  | nil => rfl
  | cons c rest ih =>
      have hpre : startsWithL ['0', 'x'] (c :: rest) = false := by
        by_contra hp
        simp only [Bool.not_eq_false] at hp
        obtain ⟨t, ht⟩ := (startsWithL_ox _).mp hp
        cases ht
        exact isHexDig_ne_x (h 'x' (by simp)) rfl
      simp [stripFirst, hpre]
      exact ih (fun d hd => h d (by simp [hd]))

theorem stripFirst_ox_cons (t : List Char) :
    stripFirst ['0', 'x'] ('0' :: 'x' :: t) = t := by
  simp [stripFirst, startsWithL]

theorem decDigitVal_decDigitChar {d : Nat} (h : d < 10) :
    digVal (decDigitChar d) = d := by
  interval_cases d <;> rfl

theorem isDecDig_decDigitChar {d : Nat} (h : d < 10) :
    isDecDig (decDigitChar d) = true := by
  interval_cases d <;> rfl

theorem digitsVal_append_singleton (base : Nat) (l : List Char) (c : Char) :
    digitsVal base (l ++ [c]) = base * digitsVal base l + digVal c := by
  simp [digitsVal, List.foldl_append]

theorem decDigitsAux_spec (fuel : Nat) :
    ∀ n, n < fuel →
      decDigitsAux fuel n ≠ [] ∧
      (∀ c ∈ decDigitsAux fuel n, isDecDig c = true) ∧
      digitsVal 10 (decDigitsAux fuel n) = n := by
  induction fuel with
  | zero => omega
  | succ fuel ih =>
      intro n hn
      simp only [decDigitsAux]
      by_cases h10 : n < 10
      · rw [if_pos h10]
        refine ⟨by simp, ?_, by simp [digitsVal, decDigitVal_decDigitChar h10]⟩
        intro c hc
        simp at hc
        subst hc
        exact isDecDig_decDigitChar h10
      · rw [if_neg h10]
        have hdiv : n / 10 < n := Nat.div_lt_self (by omega) (by omega)
        obtain ⟨hne, hall, hval⟩ := ih (n / 10) (by omega)
        refine ⟨by simp, ?_, ?_⟩
        · intro c hc
          simp at hc
          rcases hc with hc | hc
          · exact hall c hc
          · subst hc
            exact isDecDig_decDigitChar (Nat.mod_lt _ (by omega))
        · rw [digitsVal_append_singleton, hval,
              decDigitVal_decDigitChar (Nat.mod_lt _ (by omega))]
          omega

theorem parseDecL_decDigits (n : Nat) :
    parseDecL (decDigits n) = some n := by
  obtain ⟨h1, h2, h3⟩ := decDigitsAux_spec (n + 1) n (by omega)
  simp only [parseDecL, decDigits]
  rw [if_pos]
  · rw [h3]
  · simp only [Bool.and_eq_true, Bool.not_eq_true', List.all_eq_true]
    constructor
    · cases hl : decDigitsAux (n + 1) n with
      | nil => exact absurd hl h1
      | cons c t => rfl
    · intro c hc
      exact h2 c hc

theorem request_of_validate_some {m : String} {p : Option (List JSValue)}
    {e : VCError} (h : validateParams m p = some e) (net : NetOutcome) :
    request m p net = .error e := by
  unfold request
  rw [h]

theorem transformTransaction_obj (fs : List (String × JSValue)) :
    transformTransaction (.obj fs) = .obj (txTransformFields fs) := rfl

/-- The keys rewritten by the transaction transform. -/
def txSpecialKeys : List String :=
  ["blockNumber", "transactionIndex", "gas", "gasPrice", "nonce", "value",
   "gasUsed", "cumulativeGasUsed", "effectiveGasPrice"]

/-- C1, counterexample: the claim says `gasUsed` (likewise
`cumulativeGasUsed` / `effectiveGasPrice`) is "omitted entirely" whenever it
is not truthy in the source, but a present-but-falsy `gasUsed` is carried
into the output unchanged by the leading spread `...tx`: transforming
`{gasUsed: null}` yields an object whose `gasUsed` field is present (and
`null`), not omitted. -/
theorem C1_counterexample_falsy_gasUsed_kept :
    getProp (transformTransaction (.obj [("gasUsed", JSValue.null)]))
      "gasUsed" = some JSValue.null := rfl

/-- C1 (amended): for every object input `tx`, the transaction transform
(applied by `transformResponse` for `eth_getTransactionByHash` and
`eth_getTransactionReceipt` to any truthy result) maps `blockNumber`,
`transactionIndex` and `gasPrice` to `hexToDecimal` of the source when the
source field is truthy and to `null` otherwise; `gas` and `nonce` are
always `hexToDecimal` of the source; `value` is always rewritten to the
`{wei, ether}` pair; `gasUsed`, `cumulativeGasUsed` and `effectiveGasPrice`
are overwritten with `hexToDecimal` conversions only when truthy in the
source — an absent field stays absent, while a present-but-falsy field is
carried through unchanged by the shallow copy (not omitted); all other
fields are copied unchanged; and any non-object input is returned
unchanged. -/
theorem C1_transaction_transform_policy :
    (∀ fs : List (String × JSValue),
      transformTransaction (.obj fs) = .obj (txTransformFields fs) ∧
      getField (txTransformFields fs) "blockNumber" =
        some (if truthyOpt (getField fs "blockNumber") then
          JSValue.num (hexToDecimal (getField fs "blockNumber")) else .null) ∧
      getField (txTransformFields fs) "transactionIndex" =
        some (if truthyOpt (getField fs "transactionIndex") then
          JSValue.num (hexToDecimal (getField fs "transactionIndex")) else .null) ∧
      getField (txTransformFields fs) "gasPrice" =
        some (if truthyOpt (getField fs "gasPrice") then
          JSValue.num (hexToDecimal (getField fs "gasPrice")) else .null) ∧
      getField (txTransformFields fs) "gas" =
        some (.num (hexToDecimal (getField fs "gas"))) ∧
      getField (txTransformFields fs) "nonce" =
        some (.num (hexToDecimal (getField fs "nonce"))) ∧
      getField (txTransformFields fs) "value" =
        some (.obj [("wei", .str (hexToDecimalString (getField fs "value"))),
                    ("ether", .str (weiToEther (getField fs "value")))]) ∧
      (truthyOpt (getField fs "gasUsed") = true →
        getField (txTransformFields fs) "gasUsed" =
          some (.num (hexToDecimal (getField fs "gasUsed")))) ∧
      (truthyOpt (getField fs "gasUsed") = false →
        getField (txTransformFields fs) "gasUsed" = getField fs "gasUsed") ∧
      (truthyOpt (getField fs "cumulativeGasUsed") = true →
        getField (txTransformFields fs) "cumulativeGasUsed" =
          some (.num (hexToDecimal (getField fs "cumulativeGasUsed")))) ∧
      (truthyOpt (getField fs "cumulativeGasUsed") = false →
        getField (txTransformFields fs) "cumulativeGasUsed" =
          getField fs "cumulativeGasUsed") ∧
      (truthyOpt (getField fs "effectiveGasPrice") = true →
        getField (txTransformFields fs) "effectiveGasPrice" =
          some (.num (hexToDecimal (getField fs "effectiveGasPrice")))) ∧
      (truthyOpt (getField fs "effectiveGasPrice") = false →
        getField (txTransformFields fs) "effectiveGasPrice" =
          getField fs "effectiveGasPrice") ∧
      (∀ k, k ∉ txSpecialKeys →
        getField (txTransformFields fs) k = getField fs k)) ∧
    (∀ m tx, (m = "eth_getTransactionByHash" ∨
              m = "eth_getTransactionReceipt") → truthy tx = true →
      transformResponse m tx = transformTransaction tx) ∧
    (∀ v : JSValue, typeofObject v = false → transformTransaction v = v) ∧
    transformTransaction JSValue.null = JSValue.null := by
  refine ⟨fun fs => ⟨rfl, ?_, ?_, ?_, ?_, ?_, ?_, ?_, ?_, ?_, ?_, ?_, ?_, ?_⟩,
          ?_, ?_, rfl⟩
  · simp [txTransformFields, getField_condSet, getField_setField]
  · simp [txTransformFields, getField_condSet, getField_setField]
  · simp [txTransformFields, getField_condSet, getField_setField]
  · simp [txTransformFields, getField_condSet, getField_setField]
  · simp [txTransformFields, getField_condSet, getField_setField]
  · simp [txTransformFields, getField_condSet, getField_setField]
  · intro h
    simp [txTransformFields, getField_condSet, getField_setField, h]
  · intro h
    simp [txTransformFields, getField_condSet, getField_setField, h]
  · intro h
    simp [txTransformFields, getField_condSet, getField_setField, h]
  · intro h
    simp [txTransformFields, getField_condSet, getField_setField, h]
  · intro h
    simp [txTransformFields, getField_condSet, getField_setField, h]
  · intro h
    simp [txTransformFields, getField_condSet, getField_setField, h]
  · intro k hk
    simp only [txSpecialKeys, List.mem_cons, List.not_mem_nil, or_false,
               not_or] at hk
    obtain ⟨h1, h2, h3, h4, h5, h6, h7, h8, h9⟩ := hk
    simp [txTransformFields, getField_condSet, getField_setField,
          h1, h2, h3, h4, h5, h6, h7, h8, h9]
  · rintro m tx (rfl | rfl) ht <;> simp [transformResponse, ht]
  · intro v hv
    cases v <;> simp_all [transformTransaction, typeofObject, spreadFields,
                          truthy]

/-- C1, witness: instantiating the truthy-`gasUsed` clause of the amended
policy on `{gasUsed: "0x5208"}` yields `gasUsed: 21000`. -/
theorem C1_transaction_transform_policy_witness :
    getField (txTransformFields [("gasUsed", JSValue.str "0x5208")])
      "gasUsed" = some (JSValue.num 21000) := by
  have h := (C1_transaction_transform_policy.1
    [("gasUsed", JSValue.str "0x5208")]).2.2.2.2.2.2.2.1 (by rfl)
  rw [h]
  rfl

/-- The keys rewritten by the block transform. -/
def blockSpecialKeys : List String :=
  ["number", "gasLimit", "gasUsed", "timestamp", "transactions"]

/-- C2: for `eth_getBlockByNumber` and `eth_getBlockByHash`, an object
result is shallow-copied and `number`, `gasLimit`, `gasUsed` and
`timestamp` are overwritten with their `hexToDecimal` conversion exactly
when the source field is truthy (an absent field stays absent, a falsy one
is left as it was); a present (truthy) `transactions` array is mapped
elementwise, transforming the elements that are objects and leaving bare
hash strings untouched; an object with no `transactions` field is still
transformed (the output has none either); every other field is copied
unchanged; and a non-object result — or a falsy one — is passed through
unchanged.  The spec's concrete block example is reproduced exactly. -/
theorem C2_block_transform :
    (∀ bm, (bm = "eth_getBlockByNumber" ∨ bm = "eth_getBlockByHash") →
      (∀ fs : List (String × JSValue),
        transformResponse bm (.obj fs) = .obj (blockTransformFields fs)) ∧
      (∀ v, typeofObject v = false → transformResponse bm v = v) ∧
      transformResponse bm JSValue.null = JSValue.null) ∧
    (∀ fs : List (String × JSValue),
      (truthyOpt (getField fs "number") = true →
        getField (blockTransformFields fs) "number" =
          some (.num (hexToDecimal (getField fs "number")))) ∧
      (truthyOpt (getField fs "number") = false →
        getField (blockTransformFields fs) "number" = getField fs "number") ∧
      (truthyOpt (getField fs "gasLimit") = true →
        getField (blockTransformFields fs) "gasLimit" =
          some (.num (hexToDecimal (getField fs "gasLimit")))) ∧
      (truthyOpt (getField fs "gasLimit") = false →
        getField (blockTransformFields fs) "gasLimit" =
          getField fs "gasLimit") ∧
      (truthyOpt (getField fs "gasUsed") = true →
        getField (blockTransformFields fs) "gasUsed" =
          some (.num (hexToDecimal (getField fs "gasUsed")))) ∧
      (truthyOpt (getField fs "gasUsed") = false →
        getField (blockTransformFields fs) "gasUsed" =
          getField fs "gasUsed") ∧
      (truthyOpt (getField fs "timestamp") = true →
        getField (blockTransformFields fs) "timestamp" =
          some (.num (hexToDecimal (getField fs "timestamp")))) ∧
      (truthyOpt (getField fs "timestamp") = false →
        getField (blockTransformFields fs) "timestamp" =
          getField fs "timestamp") ∧
      (∀ xs, getField fs "transactions" = some (.arr xs) →
        getField (blockTransformFields fs) "transactions" =
          some (.arr (xs.map blockTxElem))) ∧
      (getField fs "transactions" = none →
        getField (blockTransformFields fs) "transactions" = none) ∧
      (∀ k, k ∉ blockSpecialKeys →
        getField (blockTransformFields fs) k = getField fs k)) ∧
    (∀ s, blockTxElem (.str s) = .str s) ∧
    (∀ gs, blockTxElem (.obj gs) = transformTransaction (.obj gs)) ∧
    transformResponse "eth_getBlockByNumber"
      (.obj [("number", .str "0xa"), ("gasLimit", .str "0x1234"),
             ("gasUsed", .str "0x1000"), ("timestamp", .str "0x60ad0d60"),
             ("transactions", .arr [])]) =
      .obj [("number", .num 10), ("gasLimit", .num 4660),
            ("gasUsed", .num 4096), ("timestamp", .num 1621953888),
            ("transactions", .arr [])] := by
  refine ⟨?_, fun fs => ⟨?_, ?_, ?_, ?_, ?_, ?_, ?_, ?_, ?_, ?_, ?_⟩,
          fun s => rfl, fun gs => rfl, rfl⟩
  · rintro bm (rfl | rfl)
    · refine ⟨fun fs => rfl, ?_, rfl⟩
      intro v hv
      cases v <;> simp_all [transformResponse, typeofObject, spreadFields,
                            truthy]
    · refine ⟨fun fs => rfl, ?_, rfl⟩
      intro v hv
      cases v <;> simp_all [transformResponse, typeofObject, spreadFields,
                            truthy]
  · intro h
    cases htx : truthyOpt (getField fs "transactions") <;>
      simp [blockTransformFields, getField_condSet, getField_setField, h,
            htx]
  · intro h
    cases htx : truthyOpt (getField fs "transactions") <;>
      simp [blockTransformFields, getField_condSet, getField_setField, h,
            htx]
  · intro h
    cases htx : truthyOpt (getField fs "transactions") <;>
      simp [blockTransformFields, getField_condSet, getField_setField, h,
            htx]
  · intro h
    cases htx : truthyOpt (getField fs "transactions") <;>
      simp [blockTransformFields, getField_condSet, getField_setField, h,
            htx]
  · intro h
    cases htx : truthyOpt (getField fs "transactions") <;>
      simp [blockTransformFields, getField_condSet, getField_setField, h,
            htx]
  · intro h
    cases htx : truthyOpt (getField fs "transactions") <;>
      simp [blockTransformFields, getField_condSet, getField_setField, h,
            htx]
  · intro h
    cases htx : truthyOpt (getField fs "transactions") <;>
      simp [blockTransformFields, getField_condSet, getField_setField, h,
            htx]
  · intro h
    cases htx : truthyOpt (getField fs "transactions") <;>
      simp [blockTransformFields, getField_condSet, getField_setField, h,
            htx]
  · intro xs h
    simp [blockTransformFields, getField_condSet, getField_setField, h,
          truthyOpt, truthy, blockTxMap]
  · intro h
    simp [blockTransformFields, getField_condSet, getField_setField, h,
          truthyOpt]
  · intro k hk
    simp only [blockSpecialKeys, List.mem_cons, List.not_mem_nil, or_false,
               not_or] at hk
    obtain ⟨h1, h2, h3, h4, h5⟩ := hk
    cases htx : truthyOpt (getField fs "transactions") <;>
      simp [blockTransformFields, getField_condSet, getField_setField,
            h1, h2, h3, h4, h5, htx]

/-- C2, witness: instantiating the truthy-`number` clause on
`{number: "0xa"}` yields `number: 10`. -/
theorem C2_block_transform_witness :
    getField (blockTransformFields [("number", JSValue.str "0xa")])
      "number" = some (JSValue.num 10) := by
  have h := (C2_block_transform.2.1 [("number", JSValue.str "0xa")]).1
    (by rfl)
  rw [h]
  rfl

theorem isEmpty_false_of_ne_nil {α : Type} {l : List α} (h : l ≠ []) :
    l.isEmpty = false := by
  cases l with
  | nil => exact absurd rfl h
  | cons c t => rfl

theorem hexToDecimalString_valid (data : List Char) (hne : data ≠ [])
    (h0x : data ≠ ['0', 'x'])
    (hclean : stripFirst ['0', 'x'] data ≠ [])
    (hall : (stripFirst ['0', 'x'] data).all isHexDig = true) :
    hexToDecimalString (some (.str ⟨data⟩)) =
      decStr (digitsVal 16 (stripFirst ['0', 'x'] data)) := by
  have ht : truthy (.str ⟨data⟩) = true := by
    simp [truthy, isEmpty_false_of_ne_nil hne]
  have h2 : jsStrictEqStr (.str ⟨data⟩) "0x" = false := by
    simp only [jsStrictEqStr, decide_eq_false_iff_not]
    intro he
    exact h0x (congrArg String.data he)
  simp only [hexToDecimalString, ht, h2, jsToString,
             Bool.true_eq_false, if_false]
  rw [if_neg (by simp [isEmpty_false_of_ne_nil hclean])]
  simp only [bigIntHexL, bigIntDigits, isEmpty_false_of_ne_nil hclean,
             hall, if_false, if_true, Bool.false_eq_true]

/-- A string that encodes a non-negative integer in hexadecimal: an
optional `0x` prefix followed by a non-empty run of hexadecimal digits. -/
def validHexStr (s : String) : Bool :=
  let digs := if startsWithL ['0', 'x'] s.data then s.data.drop 2 else s.data
  !digs.isEmpty && digs.all isHexDig

/-- The integer encoded by such a string. -/
def hexStrVal (s : String) : Nat :=
  digitsVal 16
    (if startsWithL ['0', 'x'] s.data then s.data.drop 2 else s.data)

/-- C3: for every hex string `h` encoding a non-negative integer (with or
without the `0x` prefix), `hexToDecimalString` returns the exact decimal
digit string of its value (no precision loss — the conversion is through
arbitrary-precision `BigInt`), reading that output back as an
arbitrary-precision integer recovers the value, and the 128-bit example
`0xffffffffffffffffffffffffffffffff` renders as
`340282366920938463463374607431768211455`. -/
theorem C3_hexToDecimalString_exact (s : String)
    (h : validHexStr s = true) :
    hexToDecimalString (some (.str s)) = decStr (hexStrVal s) ∧
    parseDecL (hexToDecimalString (some (.str s))).data =
      some (hexStrVal s) ∧
    hexToDecimalString (some (.str "0xffffffffffffffffffffffffffffffff")) =
      "340282366920938463463374607431768211455" := by
  have main : hexToDecimalString (some (.str s)) = decStr (hexStrVal s) := by
    obtain ⟨data⟩ := s
    cases hpre : startsWithL ['0', 'x'] data with
    | true =>
        obtain ⟨t, rfl⟩ := (startsWithL_ox data).mp hpre
        simp only [validHexStr, String.data, hpre, if_true, List.drop,
                   Bool.and_eq_true, Bool.not_eq_true', List.drop_succ_cons,
                   List.drop_zero] at h
        have htne : t ≠ [] := by
          intro hnil
          rw [hnil] at h
          simp at h
        have hstrip : stripFirst ['0', 'x'] ('0' :: 'x' :: t) = t :=
          stripFirst_ox_cons t
        rw [hexToDecimalString_valid ('0' :: 'x' :: t) (by simp)
              (by simp [htne]) (by rw [hstrip]; exact htne)
              (by rw [hstrip]; exact h.2)]
        unfold hexStrVal
        simp only [String.data, hpre, if_true, hstrip, List.drop_succ_cons,
                   List.drop_zero]
    | false =>
        simp only [validHexStr, String.data, hpre, if_false,
                   Bool.and_eq_true, Bool.not_eq_true',
                   Bool.false_eq_true] at h
        have hne : data ≠ [] := by
          intro hnil
          rw [hnil] at h
          simp at h
        have hallmem : ∀ c ∈ data, isHexDig c = true :=
          List.all_eq_true.mp h.2
        have hstrip : stripFirst ['0', 'x'] data = data :=
          stripFirst_of_all_hex hallmem
        have h0x : data ≠ ['0', 'x'] := by
          intro he
          rw [he] at hpre
          simp [startsWithL] at hpre
        rw [hexToDecimalString_valid data hne h0x
              (by rw [hstrip]; exact hne) (by rw [hstrip]; exact h.2)]
        unfold hexStrVal
        simp only [String.data, hpre, if_false, hstrip, Bool.false_eq_true]
  refine ⟨main, ?_, by decide⟩
  rw [main]
  exact parseDecL_decDigits _

/-- C3, witness: at the valid hex string `"0xff"` the theorem gives the
exact decimal rendering `"255"`. -/
theorem C3_hexToDecimalString_exact_witness :
    hexToDecimalString (some (JSValue.str "0xff")) = "255" := by
  have h := (C3_hexToDecimalString_exact "0xff" (by decide)).1
  rw [h]
  decide

/-- C4: the primitive conversions are total and zero-defaulting on
degenerate input — `hexToDecimal` yields 0 on `undefined`, `null`, the
empty string, the bare prefix `"0x"` and on any string whose cleaned form
fails to parse in base 16; `hexToDecimalString` and `weiToEther` likewise
yield `"0"` on those degenerate inputs and on any parse failure of their
respective `BigInt` conversions (no exception escapes: the model functions
are total). -/
theorem C4_conversions_zero_default :
    hexToDecimal none = 0 ∧
    hexToDecimal (some JSValue.null) = 0 ∧
    hexToDecimal (some (JSValue.str "")) = 0 ∧
    hexToDecimal (some (JSValue.str "0x")) = 0 ∧
    hexToDecimal (some (JSValue.str "zz")) = 0 ∧
    (∀ s : String, parseInt16L (stripFirst ['0', 'x'] s.data) = none →
      hexToDecimal (some (.str s)) = 0) ∧
    hexToDecimalString none = "0" ∧
    hexToDecimalString (some JSValue.null) = "0" ∧
    hexToDecimalString (some (JSValue.str "")) = "0" ∧
    hexToDecimalString (some (JSValue.str "0x")) = "0" ∧
    hexToDecimalString (some (JSValue.str "0xzz")) = "0" ∧
    (∀ s : String, bigIntHexL (stripFirst ['0', 'x'] s.data) = none →
      hexToDecimalString (some (.str s)) = "0") ∧
    weiToEther none = "0" ∧
    weiToEther (some JSValue.null) = "0" ∧
    weiToEther (some (JSValue.str "")) = "0" ∧
    weiToEther (some (JSValue.str "0x")) = "0" ∧
    weiToEther (some (JSValue.str "notanumber")) = "0" ∧
    (∀ s : String, jsBigInt s = none →
      weiToEther (some (.str s)) = "0") := by
  refine ⟨rfl, rfl, rfl, rfl, rfl, ?_, rfl, rfl, rfl, rfl, rfl, ?_,
          rfl, rfl, rfl, rfl, rfl, ?_⟩
  · intro s hp
    simp only [hexToDecimal]
    split_ifs with h1 h2
    · rfl
    · rfl
    · rw [show jsToString (.str s) = s from rfl, hp]
  · intro s hp
    simp only [hexToDecimalString]
    split_ifs with h1 h2 h3
    · rfl
    · rfl
    · rfl
    · rw [show jsToString (.str s) = s from rfl, hp]
  · intro s hp
    simp only [weiToEther]
    split_ifs with h1 h2
    · rfl
    · rfl
    · rw [show jsToString (.str s) = s from rfl, hp]

/-- C4, witness: the parse-failure clause at the unparsable string
`"qq"`. -/
theorem C4_conversions_zero_default_witness :
    hexToDecimal (some (JSValue.str "qq")) = 0 :=
  C4_conversions_zero_default.2.2.2.2.2.1 "qq" (by decide)

/-- C6: for `eth_getBalance`, `request` fails with the missing-parameter
`INVALID_PARAMS` error when `params` is absent or its length is not 2, and
with the address-parameter error when the first element is not a string
beginning with `0x` — in both cases the outcome is the same for every
network behaviour, i.e. the error is raised before (and independently of)
the outbound call; when the shape is right, validation raises nothing. -/
theorem C6_getBalance_validation :
    (∀ net, request "eth_getBalance" none net =
      .error ⟨"eth_getBalance requires address and block parameters",
              some INVALID_PARAMS⟩) ∧
    (∀ (l : List JSValue) net, l.length ≠ 2 →
      request "eth_getBalance" (some l) net =
        .error ⟨"eth_getBalance requires address and block parameters",
                some INVALID_PARAMS⟩) ∧
    (∀ (l : List JSValue) net, l.length = 2 →
      isHexStringParam l.head? = false →
      request "eth_getBalance" (some l) net =
        .error ⟨"Invalid address parameter", some INVALID_PARAMS⟩) ∧
    (∀ l : List JSValue, l.length = 2 → isHexStringParam l.head? = true →
      validateParams "eth_getBalance" (some l) = none) ∧
    (∀ p net net', validateParams "eth_getBalance" p ≠ none →
      request "eth_getBalance" p net = request "eth_getBalance" p net') := by
  refine ⟨?_, ?_, ?_, ?_, ?_⟩
  · intro net
    have h : validateParams "eth_getBalance" none =
        some ⟨"eth_getBalance requires address and block parameters",
              some INVALID_PARAMS⟩ := rfl
    exact request_of_validate_some h net
  · intro l net h
    exact request_of_validate_some (by simp [validateParams, h]) net
  · intro l net h1 h2
    exact request_of_validate_some (by simp [validateParams, h1, h2]) net
  · intro l h1 h2
    simp [validateParams, h1, h2]
  · intro p net net' hne
    cases hv : validateParams "eth_getBalance" p with
    | none => exact absurd hv hne
    | some e => rw [request_of_validate_some hv, request_of_validate_some hv]

/-- C6, witness: a non-`0x` address with a correct arity fails with the
address error for an arbitrary network behaviour. -/
theorem C6_getBalance_validation_witness :
    request "eth_getBalance"
      (some [JSValue.str "invalid-address", JSValue.str "latest"])
      (NetOutcome.otherFailure none) =
      .error ⟨"Invalid address parameter", some INVALID_PARAMS⟩ :=
  C6_getBalance_validation.2.2.1 _ _ (by decide) (by decide)

theorem getLogs_error_shape (p : Option (List JSValue)) (e : VCError)
    (h : validateParams "eth_getLogs" p = some e) :
    e = ⟨"eth_getLogs requires a filter object parameter",
         some INVALID_PARAMS⟩ := by
  rcases p with _ | l
  · simp [validateParams] at h
    simp [← h]
  · by_cases hl : l.length = 1
    · obtain ⟨v, rfl⟩ := List.length_eq_one.mp hl
      cases htv : typeofObject v
      · simp [validateParams, htv] at h
        simp [← h]
      · simp [validateParams, htv] at h
    · simp [validateParams, hl] at h
      simp [← h]

/-- C7, counterexample: the claim says a single `null` param and a single
array param are rejected before any network call, but the check is
`typeof params[0] !== 'object'` and JavaScript's `typeof null` and
`typeof []` are both `'object'`, so `validateParams` accepts them (raises
nothing). -/
theorem C7_counterexample_null_and_array_filters_accepted :
    validateParams "eth_getLogs" (some [JSValue.null]) = none ∧
    validateParams "eth_getLogs" (some [JSValue.arr []]) = none :=
  ⟨rfl, rfl⟩

/-- C7 (amended): for `eth_getLogs`, `request` raises the filter-object
`INVALID_PARAMS` error — before and independently of any network call —
unless `params` is exactly one element whose JavaScript `typeof` is
`'object'`; since `typeof null` and `typeof []` are `'object'`, a single
`null` and a single array are accepted, while a single string (e.g.
`"invalid-filter"`), number or boolean is rejected. -/
theorem C7_getLogs_validation_typeof :
    (∀ p, validateParams "eth_getLogs" p = none ↔
      ∃ v, p = some [v] ∧ typeofObject v = true) ∧
    (∀ p net, validateParams "eth_getLogs" p ≠ none →
      request "eth_getLogs" p net =
        .error ⟨"eth_getLogs requires a filter object parameter",
                some INVALID_PARAMS⟩) ∧
    validateParams "eth_getLogs" (some [JSValue.str "invalid-filter"]) =
      some ⟨"eth_getLogs requires a filter object parameter",
            some INVALID_PARAMS⟩ := by
  refine ⟨?_, ?_, rfl⟩
  · intro p
    constructor
    · intro h
      rcases p with _ | l
      · simp [validateParams] at h
      · by_cases hl : l.length = 1
        · obtain ⟨v, rfl⟩ := List.length_eq_one.mp hl
          cases htv : typeofObject v
          · simp [validateParams, htv] at h
          · exact ⟨v, rfl, htv⟩
        · simp [validateParams, hl] at h
    · rintro ⟨v, rfl, htv⟩
      simp [validateParams, htv]
  · intro p net hne
    cases hv : validateParams "eth_getLogs" p with
    | none => exact absurd hv hne
    | some e =>
        rw [request_of_validate_some hv, getLogs_error_shape p e hv]

/-- C7, witness: a single string filter is rejected identically for every
network behaviour. -/
theorem C7_getLogs_validation_typeof_witness :
    request "eth_getLogs" (some [JSValue.str "invalid-filter"])
      (NetOutcome.otherFailure none) =
      .error ⟨"eth_getLogs requires a filter object parameter",
              some INVALID_PARAMS⟩ :=
  C7_getLogs_validation_typeof.2.1 _ _ (by decide)

/-- C8: every method outside the three validated ones passes validation
unconditionally, and every method outside the normalizer's eight modelled
ones goes through the default branch of `transformResponse` unchanged. -/
theorem C8_default_branches :
    (∀ (m : String) (p : Option (List JSValue)),
      m ≠ "eth_getBalance" → m ≠ "eth_getTransactionByHash" →
      m ≠ "eth_getLogs" → validateParams m p = none) ∧
    (∀ (m : String) (r : JSValue),
      m ≠ "eth_blockNumber" → m ≠ "eth_gasPrice" → m ≠ "eth_estimateGas" →
      m ≠ "eth_getBalance" → m ≠ "eth_getBlockByNumber" →
      m ≠ "eth_getBlockByHash" → m ≠ "eth_getTransactionByHash" →
      m ≠ "eth_getTransactionReceipt" → transformResponse m r = r) := by
  constructor
  · intro m p h1 h2 h3
    simp [validateParams, h1, h2, h3]
  · intro m r h1 h2 h3 h4 h5 h6 h7 h8
    simp only [transformResponse]
    rw [if_neg (show ¬(m = "eth_blockNumber" ∨ m = "eth_gasPrice" ∨
          m = "eth_estimateGas") from by push_neg; exact ⟨h1, h2, h3⟩),
        if_neg h4,
        if_neg (show ¬(m = "eth_getBlockByNumber" ∨
          m = "eth_getBlockByHash") from by push_neg; exact ⟨h5, h6⟩),
        if_neg (show ¬(m = "eth_getTransactionByHash" ∨
          m = "eth_getTransactionReceipt") from by push_neg; exact ⟨h7, h8⟩)]
    split <;> rfl

/-- C8, witness: `net_version` is neither validated nor transformed. -/
theorem C8_default_branches_witness :
    validateParams "net_version" none = none ∧
    transformResponse "net_version" (JSValue.str "1") = JSValue.str "1" :=
  ⟨C8_default_branches.1 "net_version" none (by decide) (by decide)
      (by decide),
   C8_default_branches.2 "net_version" (JSValue.str "1") (by decide)
      (by decide) (by decide) (by decide) (by decide) (by decide)
      (by decide) (by decide)⟩

/-- C9: a falsy top-level result (`null`, `0`, `""`, `false`) is returned
unchanged by `transformResponse` for every method, before any
method-specific rule applies — a `null` `eth_getTransactionByHash` result
stays `null` and an empty-string `eth_blockNumber` result stays `""`
rather than becoming 0. -/
theorem C9_falsy_result_pass_through :
    (∀ (m : String) (r : JSValue), truthy r = false →
      transformResponse m r = r) ∧
    transformResponse "eth_getTransactionByHash" JSValue.null =
      JSValue.null ∧
    transformResponse "eth_blockNumber" (JSValue.str "") =
      JSValue.str "" ∧
    transformResponse "eth_blockNumber" (JSValue.num 0) = JSValue.num 0 ∧
    transformResponse "eth_getBalance" (JSValue.bool false) =
      JSValue.bool false := by
  refine ⟨?_, rfl, rfl, rfl, rfl⟩
  intro m r h
  simp [transformResponse, h]

/-- C9, witness: the falsy clause at an `eth_gasPrice` result of `0`. -/
theorem C9_falsy_result_pass_through_witness :
    transformResponse "eth_gasPrice" (JSValue.num 0) = JSValue.num 0 :=
  C9_falsy_result_pass_through.1 "eth_gasPrice" (JSValue.num 0) (by decide)

/-- C10: when validation passes and the outbound call succeeds with a body
whose `result` is absent (`undefined`) — in particular one carrying a
JSON-RPC-level `error` — `request` resolves normally with that body
unchanged (the error object intact, no `ValidationCloudError` thrown, no
normalization applied); in general the transform is applied to `result`
exactly when it is present. -/
theorem C10_rpc_error_body_resolves (m : String)
    (p : Option (List JSValue)) (hv : validateParams m p = none) :
    (∀ e : JSValue, request m p (.success ⟨none, some e⟩) =
      .ok ⟨none, some e⟩) ∧
    (∀ body : RpcBody, request m p (.success body) =
      .ok ⟨body.result.map (transformResponse m), body.rpcError⟩) ∧
    (∀ body : RpcBody, ∃ b, request m p (.success body) = .ok b) := by
  refine ⟨?_, ?_, ?_⟩
  · intro e
    unfold request
    rw [hv]
    rfl
  · intro body
    unfold request
    rw [hv]
  · intro body
    refine ⟨⟨body.result.map (transformResponse m), body.rpcError⟩, ?_⟩
    unfold request
    rw [hv]

/-- C10, witness: a successful `eth_blockNumber` transport call whose body
has only a JSON-RPC `error` resolves with that body unchanged. -/
theorem C10_rpc_error_body_resolves_witness :
    request "eth_blockNumber" none
      (.success ⟨none, some (JSValue.str "node error")⟩) =
      .ok ⟨none, some (JSValue.str "node error")⟩ :=
  (C10_rpc_error_body_resolves "eth_blockNumber" none rfl).1 _

end VCMcp
